import Mathlib

/-!
# Verification of the wgpu engine core

A shallow embedding of the engine's core data structures and operations:

* the GPU-resident instance registry (`InstanceManager`, from
  `src/wgpu_engine/instance.rs`),
* the camera / projection abstraction (`LookAt`, `Projection`, `Camera`,
  from `src/wgpu_engine/camera.rs`),
* the engine resize path (`WgpuEngine.resize`, from `src/wgpu_engine/mod.rs`).

Machine floats are modelled as real numbers; `u128` identities, `usize`
indices and `u64` byte sizes are modelled as `Nat` (the sizes involved are
far below any wrap-around). The GPU queue/device is modelled by keeping the
device-side buffer contents (`mirror`, the camera uniform buffer) as
explicit state and, where a claim needs it, by returning the written data.
-/

set_option maxRecDepth 4096

noncomputable section

/-! ## Vectors, rotors and matrices (models of the `ultraviolet` crate types) -/

/-- Model of `ultraviolet::Vec3`. -/
structure Vec3 where
  x : ℝ
  y : ℝ
  z : ℝ

instance : Add Vec3 := ⟨fun a b => ⟨a.x + b.x, a.y + b.y, a.z + b.z⟩⟩

instance : Sub Vec3 := ⟨fun a b => ⟨a.x - b.x, a.y - b.y, a.z - b.z⟩⟩

instance : SMul ℝ Vec3 := ⟨fun r v => ⟨r * v.x, r * v.y, r * v.z⟩⟩

/-- Model of `Vec3::mag`: Euclidean length. -/
def Vec3.mag (v : Vec3) : ℝ := Real.sqrt (v.x * v.x + v.y * v.y + v.z * v.z)

/-- Model of `Vec3::normalized`: `self * (1 / self.mag())`. -/
def Vec3.normalized (v : Vec3) : Vec3 := (1 / v.mag) • v

/-- Model of `Vec3::dot`. -/
def Vec3.dot (a b : Vec3) : ℝ := a.x * b.x + a.y * b.y + a.z * b.z

/-- Model of `Vec3::cross`. -/
def Vec3.cross (a b : Vec3) : Vec3 :=
  ⟨a.y * b.z - a.z * b.y, a.z * b.x - a.x * b.z, a.x * b.y - a.y * b.x⟩

/-- Model of `ultraviolet::Bivec3` (bivector components xy, xz, yz). -/
structure Bivec3 where
  xy : ℝ
  xz : ℝ
  yz : ℝ

/-- Model of `ultraviolet::Rotor3`: scalar part and bivector part. -/
structure Rotor3 where
  s : ℝ
  bv : Bivec3

/-- 4×4 real matrices (model of `ultraviolet::Mat4`). -/
abbrev Mat4 := Matrix (Fin 4) (Fin 4) ℝ

/-- Model of `ultraviolet::Mat4::from_translation`. -/
def mat4_from_translation (t : Vec3) : Mat4 :=
  !![1, 0, 0, t.x;
     0, 1, 0, t.y;
     0, 0, 1, t.z;
     0, 0, 0, 1]

/-- Model of `ultraviolet::Mat4::from_scale`. -/
def mat4_from_scale (s : ℝ) : Mat4 :=
  !![s, 0, 0, 0;
     0, s, 0, 0;
     0, 0, s, 0;
     0, 0, 0, 1]

/-- Model of `ultraviolet::Rotor3::from_angle_plane`: the rotor with scalar
part `cos (angle/2)` and bivector part `-sin (angle/2) • plane`. -/
def rotor3_from_angle_plane (angle : ℝ) (plane : Bivec3) : Rotor3 :=
  ⟨Real.cos (angle / 2),
   ⟨-Real.sin (angle / 2) * plane.xy, -Real.sin (angle / 2) * plane.xz,
    -Real.sin (angle / 2) * plane.yz⟩⟩

/-- Model of the rotor-to-matrix conversion underlying
`ultraviolet::Mat4::from_angle_plane` (the rotor's rotation matrix, embedded
as the upper-left 3×3 block of a homogeneous matrix). None of the claims
proved below inspects these entries; only that the conversion is a fixed
pure function of the rotor matters. -/
def rotor3_mat4 (r : Rotor3) : Mat4 :=
  let s2 := r.s * r.s
  let xy2 := r.bv.xy * r.bv.xy
  let xz2 := r.bv.xz * r.bv.xz
  let yz2 := r.bv.yz * r.bv.yz
  !![s2 - xy2 - xz2 + yz2, -2 * (r.bv.xz * r.bv.yz + r.s * r.bv.xy),
       2 * (r.bv.xy * r.bv.yz - r.s * r.bv.xz), 0;
     2 * (r.s * r.bv.xy - r.bv.xz * r.bv.yz), s2 - xy2 + xz2 - yz2,
       -2 * (r.s * r.bv.yz + r.bv.xy * r.bv.xz), 0;
     2 * (r.s * r.bv.xz + r.bv.xy * r.bv.yz), 2 * (r.s * r.bv.yz - r.bv.xy * r.bv.xz),
       s2 + xy2 - xz2 - yz2, 0;
     0, 0, 0, 1]

/-- Model of `Mat4::from_angle_plane(angle, plane)`. -/
def mat4_from_angle_plane (angle : ℝ) (plane : Bivec3) : Mat4 :=
  rotor3_mat4 (rotor3_from_angle_plane angle plane)

/-! ## Instances and their raw (serialized) form -/

/-- Model of `Instance` (instance.rs): a stable identity plus a transform. -/
structure Instance where
  id : ℕ
  position : Vec3
  rotation : Rotor3
  scale : ℝ

/-- Model of `InstanceRaw`: the serialized 4×4 model matrix that is written
to the GPU instance buffer. -/
structure InstanceRaw where
  model : Mat4

/-- `InstanceRaw::SIZE = size_of::<InstanceRaw>()`: sixteen `f32`s, 64 bytes. -/
def InstanceRaw.SIZE : ℕ := 64

/-- Model of `Instance::to_raw`:
`from_translation(position) * from_angle_plane(rotation.s, rotation.bv) * from_scale(scale)`. -/
def Instance.to_raw (i : Instance) : InstanceRaw :=
  ⟨mat4_from_translation i.position * mat4_from_angle_plane i.rotation.s i.rotation.bv *
    mat4_from_scale i.scale⟩

/-- A throwaway instance used to model the value read by `self.instances[index]`
(the read is only ever performed at in-bounds indices in well-formed states). -/
def defaultInstance : Instance := ⟨0, ⟨0, 0, 0⟩, ⟨1, ⟨0, 0, 0⟩⟩, 1⟩

/-! ## The id-to-index map (model of `HashMap<u128, usize>`) -/

/-- Model of `HashMap::get`: look a key up. -/
def mapLookup (k : ℕ) : List (ℕ × ℕ) → Option ℕ
  | [] => none
  | (k', v) :: t => if k' = k then some v else mapLookup k t

/-- Model of `HashMap::insert`: bind `k` to `v`, replacing any previous
binding of `k` (the entry order of a hash map carries no semantics). -/
def mapInsert (k v : ℕ) (l : List (ℕ × ℕ)) : List (ℕ × ℕ) :=
  (k, v) :: l.filter (fun p => p.1 ≠ k)

/-- Model of `HashMap::remove`: drop the binding of `k` and return the value
it was bound to (if any). -/
def mapRemove (k : ℕ) (l : List (ℕ × ℕ)) : Option ℕ × List (ℕ × ℕ) :=
  (mapLookup k l, l.filter (fun p => p.1 ≠ k))

/-! ## Buffer growth

`add_instance` grows the buffer with
`while raw_size > buffer_size { buffer_size *= 2 }`.
The loop is embedded with an explicit iteration bound (`fuel`): starting
from a positive size, every iteration adds at least 1, so `target`
iterations always suffice and the bound is never what stops the loop
(`growSize_ge` below). At `size = 0` the Rust loop would never terminate;
the model returns 0 there, a state no reachable registry is in (the initial
buffer size is 4). -/

def growSizeAux : ℕ → ℕ → ℕ → ℕ
  | 0, _, size => size
  | fuel + 1, target, size =>
      if size < target then growSizeAux fuel target (size * 2) else size

/-- The final buffer size computed by the doubling loop of `add_instance`. -/
def growSize (target size : ℕ) : ℕ := growSizeAux target target size

/-! ## The instance registry (model of `InstanceManager`, instance.rs)

The `model: Arc<Model>` field (the shared geometry the registry draws) and
the device/queue handles are not part of the registry's own state and are
omitted. The GPU buffer is modelled by its byte size `bufferSize` and its
contents `mirror` (slot index ↦ record, for the slot-aligned records the
code writes; a freshly created buffer holds no records). -/

structure InstanceManager where
  instances : List Instance
  bufferSize : ℕ
  mirror : ℕ → Option InstanceRaw
  idToIndex : List (ℕ × ℕ)
  removeIdxs : List ℕ

/-- Model of `InstanceManager::new`: empty registry, instance buffer created
with `size: 4` bytes. -/
def InstanceManager.new : InstanceManager :=
  { instances := [], bufferSize := 4, mirror := fun _ => none,
    idToIndex := [], removeIdxs := [] }

/-- A fresh registry whose buffer starts at `c` bytes instead of the
source's literal 4: the source constructor is `initWithSize 4`. -/
def initWithSize (c : ℕ) : InstanceManager :=
  { InstanceManager.new with bufferSize := c }

/-- Model of `InstanceManager::update_instance`: on a present identity,
overwrite `instances[index]` and write that slot's record at its offset
(`index * size_of::<InstanceRaw>()`); on an absent identity return
`Err("Instance not found")` with the state untouched. The pair returns the
(possibly) mutated `self` together with the `Result<()>`. -/
def InstanceManager.update_instance (s : InstanceManager) (inst : Instance) :
    InstanceManager × Except String Unit :=
  match mapLookup inst.id s.idToIndex with
  | some index =>
      ({ s with
          mirror := fun i => if i = index then some inst.to_raw else s.mirror i,
          instances := s.instances.set index inst },
       Except.ok ())
  | none => (s, Except.error "Instance not found")

/-- Model of `InstanceManager::add_instance`. Reuse path: pop the
most-recently-freed slot index (`remove_idxs.pop()`), bind the identity to
it, store the instance there and write its record via `update_instance`
(whose `Result` is `.unwrap()`ed; it is `Ok` because the identity was just
inserted). Append path: compute `raw_size`, grow the buffer by doubling if
needed (destroy + recreate clears the device contents, then the full live
set is re-uploaded), write the new record at slot `instances.len()`, bind
the identity and push the instance. -/
def InstanceManager.add_instance (s : InstanceManager) (inst : Instance) :
    InstanceManager :=
  match s.removeIdxs.getLast? with
  | some index =>
      let s1 := { s with
          removeIdxs := s.removeIdxs.dropLast,
          idToIndex := mapInsert inst.id index s.idToIndex,
          instances := s.instances.set index inst }
      (s1.update_instance inst).1
  | none =>
      let rawSize := InstanceRaw.SIZE * (s.instances.length + 1)
      let s2 :=
        if s.bufferSize < rawSize then
          { s with
              bufferSize := growSize rawSize s.bufferSize,
              mirror := fun i =>
                if i < s.instances.length then (s.instances[i]?).map Instance.to_raw
                else none }
        else s
      { s2 with
          mirror := fun i =>
            if i = s.instances.length then some inst.to_raw else s2.mirror i,
          idToIndex := mapInsert inst.id s.instances.length s2.idToIndex,
          instances := s2.instances ++ [inst] }

/-- Model of `InstanceManager::remove_instance`: remove the identity from
the map; if it was bound to an index, push that index onto `remove_idxs`
and return the instance stored there (`self.instances[index]`, modelled
totally with `getD`; the index is in bounds in every well-formed state);
otherwise return `Err("Instance not found")`. The instance vector itself is
not shrunk and the device mirror is not rewritten. -/
def InstanceManager.remove_instance (s : InstanceManager) (instanceId : ℕ) :
    InstanceManager × Except String Instance :=
  match mapRemove instanceId s.idToIndex with
  | (some index, m) =>
      ({ s with idToIndex := m, removeIdxs := s.removeIdxs ++ [index] },
       Except.ok (s.instances.getD index defaultInstance))
  | (none, m) => ({ s with idToIndex := m }, Except.error "Instance not found")

/-- Modelled from the spec: the per-registry draw call issued by
`WgpuEngine::render` via `render_pass.draw_instances` (draw.rs is declared
as `mod draw` but its source is not in the repository snapshot). Per §4.1
and §9 of the spec, the frame orchestrator "draws by contiguous slot count
including holes", i.e. the instance range of the indexed-draw-instanced
call covers the full allocated slot count `instances.len()`. -/
def drawInstanceCount (s : InstanceManager) : ℕ := s.instances.length

/-! ## Operation words and reachability -/

/-- One public mutation of the registry. -/
inductive Op where
  | add (inst : Instance)
  | update (inst : Instance)
  | remove (id : ℕ)

/-- Apply one operation (discarding the returned `Result`). -/
def applyOp (s : InstanceManager) : Op → InstanceManager
  | Op.add inst => s.add_instance inst
  | Op.update inst => (s.update_instance inst).1
  | Op.remove id => (s.remove_instance id).1

/-- Apply a sequence of operations. -/
def applyOps (s : InstanceManager) (ops : List Op) : InstanceManager :=
  ops.foldl applyOp s

/-- Registry states reachable from the constructor by public operations. -/
inductive Reachable : InstanceManager → Prop
  | init : Reachable InstanceManager.new
  | step {s : InstanceManager} (op : Op) : Reachable s → Reachable (applyOp s op)

/-- `op` is an insertion of identity `id`. -/
def insertsId (id : ℕ) : Op → Prop
  | Op.add inst => inst.id = id
  | _ => False

/-- Structural well-formedness: every index bound in the map and every
freed index is in bounds of the instance vector. Holds in every reachable
state (`wf_reachable`). -/
def WF (s : InstanceManager) : Prop :=
  (∀ p ∈ s.idToIndex, p.2 < s.instances.length) ∧
  (∀ i ∈ s.removeIdxs, i < s.instances.length)

/-! ## Camera view model (model of `LookAt`, camera.rs) -/

/-- Model of `LookAt`: eye, target and up vectors. -/
structure LookAt where
  eye : Vec3
  target : Vec3
  up : Vec3

/-- Model of `ultraviolet::Mat4::look_at` (right-handed look-at matrix).
None of the claims proved below inspects its entries. -/
def mat4_look_at (eye target up : Vec3) : Mat4 :=
  let f := (target - eye).normalized
  let r := (f.cross up).normalized
  let u := r.cross f
  !![r.x, r.y, r.z, -(r.dot eye);
     u.x, u.y, u.z, -(u.dot eye);
     -f.x, -f.y, -f.z, f.dot eye;
     0, 0, 0, 1]

/-- Model of `LookAt::view_mat`. -/
def LookAt.view_mat (v : LookAt) : Mat4 := mat4_look_at v.eye v.target v.up

/-- Model of `LookAt::go_forward` (camera.rs lines 25–33), line by line:
compute `forward = target - eye`, its magnitude and its normalization;
advance the eye by `speed` along the normalized direction inside the
`forward_mag > speed` guard, and then advance it by `speed` once more
unconditionally. -/
def LookAt.go_forward (v : LookAt) (speed : ℝ) : LookAt :=
  let forward := v.target - v.eye
  let forwardMag := forward.mag
  let forwardN := forward.normalized
  let eye1 := if speed < forwardMag then v.eye + speed • forwardN else v.eye
  { v with eye := eye1 + speed • forwardN }

/-! ## Projections and the camera (camera.rs) -/

/-- The two projection strategies (`dyn Projection` in the source, with
implementors `PerspectiveProjection` and `OrthographicProjection`). -/
inductive Projection where
  | perspective (aspect fovy znear zfar : ℝ)
  | orthographic (left right bottom top znear zfar : ℝ)

/-- Model of `ultraviolet::projection::perspective_wgpu_dx` (0..1 depth
range). None of the claims proved below inspects its entries. -/
def perspective_wgpu_dx (fovy aspect znear zfar : ℝ) : Mat4 :=
  let sy := 1 / Real.tan (fovy / 2)
  let sx := sy / aspect
  let nmf := znear - zfar
  !![sx, 0, 0, 0;
     0, sy, 0, 0;
     0, 0, zfar / nmf, znear * zfar / nmf;
     0, 0, -1, 0]

/-- Model of `ultraviolet::projection::orthographic_wgpu_dx` (0..1 depth
range). None of the claims proved below inspects its entries. -/
def orthographic_wgpu_dx (left right bottom top znear zfar : ℝ) : Mat4 :=
  !![2 / (right - left), 0, 0, -((right + left) / (right - left));
     0, 2 / (top - bottom), 0, -((top + bottom) / (top - bottom));
     0, 0, -(1 / (zfar - znear)), -(znear / (zfar - znear));
     0, 0, 0, 1]

/-- Model of `Projection::proj_matrix` for both implementors. -/
def Projection.proj_matrix : Projection → Mat4
  | Projection.perspective aspect fovy znear zfar => perspective_wgpu_dx fovy aspect znear zfar
  | Projection.orthographic l r b t znear zfar => orthographic_wgpu_dx l r b t znear zfar

/-- Model of `Projection::resize` for both implementors:
perspective recomputes `aspect = width / height`; orthographic sets
`right = width` and `top = height`. -/
def Projection.resize : Projection → ℝ → ℝ → Projection
  | Projection.perspective _ fovy znear zfar, w, h =>
      Projection.perspective (w / h) fovy znear zfar
  | Projection.orthographic l _ b _ znear zfar, w, h =>
      Projection.orthographic l w b h znear zfar

/-- Model of `CameraUniform`: the serialized view-projection matrix. -/
structure CameraUniform where
  view_proj : Mat4

/-- Model of `Camera`: view, owned projection, host-side uniform and the
device-side uniform buffer contents (the bind group carries no state of its
own and is omitted). -/
structure Camera where
  view : LookAt
  projection : Projection
  uniform : CameraUniform
  buffer : CameraUniform

/-- Model of `Camera::build_view_proj_matrix`: `proj * view`. -/
def Camera.build_view_proj_matrix (c : Camera) : Mat4 :=
  c.projection.proj_matrix * c.view.view_mat

/-- Model of `Camera::update`: recompute the uniform from the current view
and projection (`uniform.update_view_proj`), then write the serialized
uniform to the camera buffer. Returns the new camera together with the list
of device writes issued by the call (exactly one). -/
def Camera.update (c : Camera) : Camera × List CameraUniform :=
  let u : CameraUniform := ⟨c.build_view_proj_matrix⟩
  ({ c with uniform := u, buffer := u }, [u])

/-! ## The engine resize path (mod.rs) -/

/-- Model of `WindowSize` (u32 width/height). -/
structure WindowSize where
  width : ℕ
  height : ℕ

/-- The width/height of `wgpu::SurfaceConfiguration` (the other fields are
never changed after construction). -/
structure SurfaceConfig where
  width : ℕ
  height : ℕ

/-- A depth texture, identified by its dimensions. -/
structure DepthTexture where
  width : ℕ
  height : ℕ

/-- Modelled from the spec: `texture::Texture::create_depth_texture`
(texture.rs is not in the repository snapshot); per §4.3 the depth
attachment is sized to the current surface configuration. -/
def create_depth_texture (config : SurfaceConfig) : DepthTexture :=
  ⟨config.width, config.height⟩

/-- Model of the engine state touched by `WgpuEngine::resize`: the surface
configuration, the stored size, the camera (whose projection `resize`
mutates) and the depth attachment. -/
structure WgpuEngine where
  config : SurfaceConfig
  size : WindowSize
  camera : Camera
  depth_texture : DepthTexture

/-- Model of `WgpuEngine::resize` (mod.rs lines 207–217): guarded by
`new_size.width > 0 && new_size.height > 0`; inside the guard it updates
the surface configuration, the stored size, resizes the projection with the
new dimensions, reconfigures the surface and rebuilds the depth texture
from the new configuration. Outside the guard nothing happens. -/
def WgpuEngine.resize (e : WgpuEngine) (newSize : WindowSize) : WgpuEngine :=
  if 0 < newSize.width ∧ 0 < newSize.height then
    let config : SurfaceConfig := { width := newSize.width, height := newSize.height }
    { e with
        config := config,
        size := newSize,
        camera := { e.camera with
          projection := e.camera.projection.resize (newSize.width : ℝ) (newSize.height : ℝ) },
        depth_texture := create_depth_texture config }
  else e

/-! ## Concrete inputs used by the claim witnesses -/

/-- A concrete instance with identity `n` (the transform payload is
irrelevant to the registry claims). -/
def mkInst (n : ℕ) : Instance := ⟨n, ⟨0, 0, 0⟩, ⟨1, ⟨0, 0, 0⟩⟩, 1⟩

/-- A concrete instance with identity 0. -/
def inst0 : Instance := mkInst 0

/-- A second instance with the same identity 0 but a different transform. -/
def inst0b : Instance := ⟨0, ⟨5, 5, 5⟩, ⟨1, ⟨0, 0, 0⟩⟩, 2⟩

/-- A registry holding exactly the one instance `inst0`. -/
def regOne : InstanceManager := InstanceManager.new.add_instance inst0

/-- `regOne` after removing identity 0: its free-slot stack is `[0]`. -/
def regFreed : InstanceManager := (regOne.remove_instance 0).1

/-- A fresh registry filled with 100 instances with identities 0..99. -/
def runAdds : InstanceManager :=
  (List.range 100).foldl (fun s i => s.add_instance (mkInst i)) InstanceManager.new

/-- `runAdds` after removing the 50 even identities 0, 2, ..., 98. -/
def runC2 : InstanceManager :=
  ((List.range 50).map (fun m => 2 * m)).foldl (fun s i => (s.remove_instance i).1) runAdds

/-- A concrete view with the eye 3 units away from the target. -/
def la0 : LookAt := ⟨⟨0, 0, 0⟩, ⟨3, 0, 0⟩, ⟨0, 1, 0⟩⟩

/-- A concrete engine configured at 801×600 (the size `main.rs` opens its
window at). -/
def engine801 : WgpuEngine :=
  { config := ⟨801, 600⟩, size := ⟨801, 600⟩,
    camera :=
      { view := ⟨⟨0, 3, 10⟩, ⟨0, 0, 0⟩, ⟨0, 1, 0⟩⟩,
        projection := Projection.perspective (801 / 600) (Real.pi / 4) 0.1 100,
        uniform := ⟨1⟩, buffer := ⟨1⟩ },
    depth_texture := ⟨801, 600⟩ }

/-! ## Basic lemmas about the embedded helpers -/

@[simp] theorem Vec3.add_def (a b : Vec3) : a + b = ⟨a.x + b.x, a.y + b.y, a.z + b.z⟩ := rfl

@[simp] theorem Vec3.sub_def (a b : Vec3) : a - b = ⟨a.x - b.x, a.y - b.y, a.z - b.z⟩ := rfl

@[simp] theorem Vec3.smul_def (r : ℝ) (v : Vec3) : r • v = ⟨r * v.x, r * v.y, r * v.z⟩ := rfl

@[simp] theorem mapLookup_nil (k : ℕ) : mapLookup k [] = none := rfl

@[simp] theorem mapLookup_cons (k k' v : ℕ) (t : List (ℕ × ℕ)) :
    mapLookup k ((k', v) :: t) = if k' = k then some v else mapLookup k t := rfl

@[simp] theorem mapLookup_mapInsert_self (k v : ℕ) (l : List (ℕ × ℕ)) :
    mapLookup k (mapInsert k v l) = some v := by
  simp [mapInsert]

theorem mapLookup_filter_self (k : ℕ) (l : List (ℕ × ℕ)) :
    mapLookup k (l.filter (fun p => p.1 ≠ k)) = none := by
  induction l with
  | nil => rfl
  | cons p t ih =>
    by_cases hp : p.1 = k
    · rw [List.filter_cons_of_neg (by simpa using hp)]; exact ih
    · rw [List.filter_cons_of_pos (by simpa using hp)]
      cases p with
      | mk a b => simpa [hp] using ih

theorem filter_eq_self_of_lookup_none (k : ℕ) (l : List (ℕ × ℕ))
    (h : mapLookup k l = none) : l.filter (fun p => p.1 ≠ k) = l := by
  induction l with
  | nil => rfl
  | cons p t ih =>
    cases p with
    | mk a b =>
      rw [mapLookup_cons] at h
      by_cases ha : a = k
      · simp [ha] at h
      · rw [if_neg ha] at h
        rw [List.filter_cons_of_pos (by simpa using ha), ih h]

theorem mapLookup_filter_ne (k k' : ℕ) (l : List (ℕ × ℕ)) (h : k' ≠ k) :
    mapLookup k' (l.filter (fun p => p.1 ≠ k)) = mapLookup k' l := by
  induction l with
  | nil => rfl
  | cons p t ih =>
    cases p with
    | mk a b =>
      by_cases ha : a = k
      · rw [List.filter_cons_of_neg (by simpa using ha)]
        rw [ih, mapLookup_cons, if_neg (by omega)]
      · rw [List.filter_cons_of_pos (by simpa using ha)]
        simp only [mapLookup_cons]
        by_cases hk' : a = k'
        · simp [hk']
        · rw [if_neg hk', if_neg hk', ih]

theorem mapLookup_mapInsert_ne (k k' v : ℕ) (l : List (ℕ × ℕ)) (h : k' ≠ k) :
    mapLookup k' (mapInsert k v l) = mapLookup k' l := by
  unfold mapInsert
  rw [mapLookup_cons, if_neg (fun hk => h hk.symm)]
  exact mapLookup_filter_ne k k' l h

theorem growSizeAux_le (fuel target size : ℕ) : size ≤ growSizeAux fuel target size := by
  induction fuel generalizing size with
  | zero => exact Nat.le_refl _
  | succ n ih =>
    unfold growSizeAux
    by_cases h : size < target
    · rw [if_pos h]
      exact Nat.le_trans (by omega) (ih (size * 2))
    · rw [if_neg h]

theorem growSizeAux_ge (fuel target size : ℕ) (hs : 0 < size)
    (hf : target ≤ size + fuel) : target ≤ growSizeAux fuel target size := by
  induction fuel generalizing size with
  | zero =>
    unfold growSizeAux
    omega
  | succ n ih =>
    unfold growSizeAux
    by_cases h : size < target
    · rw [if_pos h]
      exact ih (size * 2) (by omega) (by omega)
    · rw [if_neg h]
      omega

/-- The loop's result is at least the target (the loop really exits by its
own condition, not by fuel exhaustion). -/
theorem growSize_ge (target size : ℕ) (hs : 0 < size) : target ≤ growSize target size :=
  growSizeAux_ge target target size hs (by omega)

theorem growSize_le (target size : ℕ) : size ≤ growSize target size :=
  growSizeAux_le target target size

theorem growSizeAux_pow (fuel target size : ℕ) :
    ∃ k, growSizeAux fuel target size = size * 2 ^ k ∧
      (k = 0 ∨ size * 2 ^ (k - 1) < target) := by
  induction fuel generalizing size with
  | zero => exact ⟨0, by simp [growSizeAux], Or.inl rfl⟩
  | succ n ih =>
    unfold growSizeAux
    by_cases h : size < target
    · rw [if_pos h]
      obtain ⟨k, hk, hmin⟩ := ih (size * 2)
      refine ⟨k + 1, by rw [hk]; ring, Or.inr ?_⟩
      rcases hmin with h0 | hlt
      · subst h0; simpa using h
      · have : size * 2 * 2 ^ (k - 1) = size * 2 ^ (k - 1 + 1) := by ring
        rcases Nat.eq_zero_or_pos k with hk0 | hk1
        · subst hk0; simpa using h
        · have hke : k - 1 + 1 = k := by omega
          rw [this, hke] at hlt
          simpa using hlt
    · rw [if_neg h]
      exact ⟨0, by simp, Or.inl rfl⟩

/-- Characterization of the doubling loop: the result is the initial size
times a power of two, large enough for the target, and minimally so. -/
theorem growSize_pow (target size : ℕ) :
    ∃ k, growSize target size = size * 2 ^ k ∧
      (k = 0 ∨ size * 2 ^ (k - 1) < target) :=
  growSizeAux_pow target target size

theorem mapLookup_mem (k v : ℕ) (l : List (ℕ × ℕ)) (h : mapLookup k l = some v) :
    (k, v) ∈ l := by
  induction l with
  | nil => simp [mapLookup] at h
  | cons p t ih =>
    cases p with
    | mk a b =>
      rw [mapLookup_cons] at h
      by_cases ha : a = k
      · rw [if_pos ha] at h
        subst ha
        cases h
        exact List.mem_cons_self _ _
      · rw [if_neg ha] at h
        exact List.mem_cons_of_mem _ (ih h)

theorem update_instance_found (s : InstanceManager) (inst : Instance) (index : ℕ)
    (h : mapLookup inst.id s.idToIndex = some index) :
    s.update_instance inst =
      ({ s with
          mirror := fun i => if i = index then some inst.to_raw else s.mirror i,
          instances := s.instances.set index inst },
       Except.ok ()) := by
  unfold InstanceManager.update_instance
  rw [h]

theorem update_instance_notFound (s : InstanceManager) (inst : Instance)
    (h : mapLookup inst.id s.idToIndex = none) :
    s.update_instance inst = (s, Except.error "Instance not found") := by
  unfold InstanceManager.update_instance
  rw [h]

theorem remove_instance_found (s : InstanceManager) (id index : ℕ)
    (h : mapLookup id s.idToIndex = some index) :
    s.remove_instance id =
      ({ s with
          idToIndex := s.idToIndex.filter (fun p => p.1 ≠ id),
          removeIdxs := s.removeIdxs ++ [index] },
       Except.ok (s.instances.getD index defaultInstance)) := by
  unfold InstanceManager.remove_instance mapRemove
  rw [h]

theorem remove_instance_notFound (s : InstanceManager) (id : ℕ)
    (h : mapLookup id s.idToIndex = none) :
    s.remove_instance id = (s, Except.error "Instance not found") := by
  unfold InstanceManager.remove_instance mapRemove
  rw [h, filter_eq_self_of_lookup_none id _ h]

theorem add_instance_reuse (s : InstanceManager) (inst : Instance) (index : ℕ)
    (h : s.removeIdxs.getLast? = some index) :
    s.add_instance inst =
      { s with
          removeIdxs := s.removeIdxs.dropLast,
          idToIndex := mapInsert inst.id index s.idToIndex,
          instances := s.instances.set index inst,
          mirror := fun i => if i = index then some inst.to_raw else s.mirror i } := by
  have h2 : mapLookup inst.id (mapInsert inst.id index s.idToIndex) = some index :=
    mapLookup_mapInsert_self _ _ _
  unfold InstanceManager.add_instance
  rw [h]
  show (InstanceManager.update_instance
    { instances := s.instances.set index inst, bufferSize := s.bufferSize,
      mirror := s.mirror, idToIndex := mapInsert inst.id index s.idToIndex,
      removeIdxs := s.removeIdxs.dropLast } inst).1 = _
  rw [update_instance_found
    { instances := s.instances.set index inst, bufferSize := s.bufferSize,
      mirror := s.mirror, idToIndex := mapInsert inst.id index s.idToIndex,
      removeIdxs := s.removeIdxs.dropLast } inst index h2]
  simp [List.set_set]

theorem add_instance_append (s : InstanceManager) (inst : Instance)
    (h : s.removeIdxs.getLast? = none) :
    s.add_instance inst =
      { instances := s.instances ++ [inst],
        bufferSize :=
          if s.bufferSize < InstanceRaw.SIZE * (s.instances.length + 1) then
            growSize (InstanceRaw.SIZE * (s.instances.length + 1)) s.bufferSize
          else s.bufferSize,
        mirror := fun i =>
          if i = s.instances.length then some inst.to_raw
          else if s.bufferSize < InstanceRaw.SIZE * (s.instances.length + 1) then
            (if i < s.instances.length then (s.instances[i]?).map Instance.to_raw else none)
          else s.mirror i,
        idToIndex := mapInsert inst.id s.instances.length s.idToIndex,
        removeIdxs := s.removeIdxs } := by
  unfold InstanceManager.add_instance
  rw [h]
  by_cases hg : s.bufferSize < InstanceRaw.SIZE * (s.instances.length + 1)
  · simp [hg]
  · simp [hg]

/-! ## Well-formedness is preserved by every operation -/

theorem mem_of_getLast?_eq (l : List ℕ) (a : ℕ) (h : l.getLast? = some a) : a ∈ l := by
  have hd := List.dropLast_append_getLast? a (Option.mem_def.mpr h)
  rw [← hd]
  exact List.mem_append_right _ (List.mem_singleton.mpr rfl)

theorem wf_applyOp (s : InstanceManager) (op : Op) (h : WF s) : WF (applyOp s op) := by
  obtain ⟨hmap, hfree⟩ := h
  cases op with
  | add inst =>
    show WF (s.add_instance inst)
    cases hl : s.removeIdxs.getLast? with
    | some index =>
      rw [add_instance_reuse s inst index hl]
      have hidx : index < s.instances.length :=
        hfree index (mem_of_getLast?_eq _ index hl)
      constructor
      · intro p hp
        simp only [List.length_set]
        rcases List.mem_cons.mp hp with hp | hp
        · subst hp; exact hidx
        · exact hmap p (List.mem_of_mem_filter hp)
      · intro i hi
        simp only [List.length_set]
        exact hfree i ((List.dropLast_sublist _).subset hi)
    | none =>
      rw [add_instance_append s inst hl]
      constructor
      · intro p hp
        simp only [List.length_append, List.length_singleton]
        rcases List.mem_cons.mp hp with hp | hp
        · subst hp; omega
        · have := hmap p (List.mem_of_mem_filter hp); omega
      · intro i hi
        simp only [List.length_append, List.length_singleton]
        have := hfree i hi; omega
  | update inst =>
    show WF (s.update_instance inst).1
    cases hl : mapLookup inst.id s.idToIndex with
    | some index =>
      rw [update_instance_found s inst index hl]
      exact ⟨fun p hp => by simpa using hmap p hp,
             fun i hi => by simpa using hfree i hi⟩
    | none =>
      rw [update_instance_notFound s inst hl]
      exact ⟨hmap, hfree⟩
  | remove id =>
    show WF (s.remove_instance id).1
    cases hl : mapLookup id s.idToIndex with
    | some index =>
      rw [remove_instance_found s id index hl]
      constructor
      · intro p hp
        exact hmap p (List.mem_of_mem_filter hp)
      · intro i hi
        rcases List.mem_append.mp hi with hi | hi
        · exact hfree i hi
        · have hi2 := List.mem_singleton.mp hi
          subst hi2
          exact hmap _ (mapLookup_mem id i _ hl)
    | none =>
      rw [remove_instance_notFound s id hl]
      exact ⟨hmap, hfree⟩

theorem wf_applyOps (s : InstanceManager) (ops : List Op) (h : WF s) :
    WF (applyOps s ops) := by
  induction ops generalizing s with
  | nil => exact h
  | cons op t ih => exact ih _ (wf_applyOp s op h)

theorem wf_new : WF InstanceManager.new := by
  constructor <;> intro x hx <;> simp [InstanceManager.new] at hx

/-- Every reachable registry state is well-formed. -/
theorem wf_reachable (s : InstanceManager) (h : Reachable s) : WF s := by
  induction h with
  | init => exact wf_new
  | step op _ ih => exact wf_applyOp _ op ih

/-! ## Absence of an identity is preserved by operations that do not insert it -/

theorem mapLookup_none_applyOp (s : InstanceManager) (op : Op) (id : ℕ)
    (h : mapLookup id s.idToIndex = none) (hop : ¬ insertsId id op) :
    mapLookup id (applyOp s op).idToIndex = none := by
  cases op with
  | add inst =>
    have hne : inst.id ≠ id := hop
    show mapLookup id (s.add_instance inst).idToIndex = none
    cases hl : s.removeIdxs.getLast? with
    | some index =>
      rw [add_instance_reuse s inst index hl]
      simpa [mapLookup_mapInsert_ne inst.id id index s.idToIndex
        (fun hk => hne hk.symm)] using h
    | none =>
      rw [add_instance_append s inst hl]
      simpa [mapLookup_mapInsert_ne inst.id id s.instances.length s.idToIndex
        (fun hk => hne hk.symm)] using h
  | update inst =>
    show mapLookup id (s.update_instance inst).1.idToIndex = none
    cases hl : mapLookup inst.id s.idToIndex with
    | some index => rw [update_instance_found s inst index hl]; exact h
    | none => rw [update_instance_notFound s inst hl]; exact h
  | remove rid =>
    show mapLookup id (s.remove_instance rid).1.idToIndex = none
    cases hl : mapLookup rid s.idToIndex with
    | some index =>
      rw [remove_instance_found s rid index hl]
      by_cases hid : id = rid
      · subst hid; exact mapLookup_filter_self id s.idToIndex
      · rw [show ({ s with
            idToIndex := s.idToIndex.filter (fun p => p.1 ≠ rid),
            removeIdxs := s.removeIdxs ++ [index] } : InstanceManager).idToIndex =
            s.idToIndex.filter (fun p => p.1 ≠ rid) from rfl,
          mapLookup_filter_ne rid id s.idToIndex hid]
        exact h
    | none => rw [remove_instance_notFound s rid hl]; exact h

theorem mapLookup_none_applyOps (s : InstanceManager) (ops : List Op) (id : ℕ)
    (h : mapLookup id s.idToIndex = none) (hops : ∀ op ∈ ops, ¬ insertsId id op) :
    mapLookup id (applyOps s ops).idToIndex = none := by
  induction ops generalizing s with
  | nil => exact h
  | cons op t ih =>
    exact ih _ (mapLookup_none_applyOp s op id h (hops op (List.mem_cons_self _ _)))
      (fun o ho => hops o (List.mem_cons_of_mem _ ho))

/-! ## List access helpers -/

theorem getD_set_self (l : List Instance) (i : ℕ) (a : Instance) (h : i < l.length) :
    (l.set i a).getD i defaultInstance = a := by
  induction l generalizing i with
  | nil => simp at h
  | cons x t ih =>
    cases i with
    | zero => rfl
    | succ n =>
      simp only [List.set_cons_succ, List.getD_cons_succ]
      exact ih n (by simpa using h)

theorem getD_append_length (l : List Instance) (a : Instance) :
    (l ++ [a]).getD l.length defaultInstance = a := by
  induction l with
  | nil => rfl
  | cons x t ih => simpa using ih

/-! ## Claims -/

/-- C10: for every registry state and every identity absent from the
id-to-index map, `update_instance` and `remove_instance` return
`Err("Instance not found")` and leave the entire registry state — the
instances vector, the id-to-index map, the free-slot stack and the device
mirror — exactly as it was (error atomicity at the public interface). -/
theorem c10_absent_id_error_atomicity (s : InstanceManager) (inst : Instance) (id : ℕ)
    (h1 : mapLookup inst.id s.idToIndex = none)
    (h2 : mapLookup id s.idToIndex = none) :
    s.update_instance inst = (s, Except.error "Instance not found") ∧
    s.remove_instance id = (s, Except.error "Instance not found") :=
  ⟨update_instance_notFound s inst h1, remove_instance_notFound s id h2⟩

/-- Witness for C10 at a concrete one-instance registry and the absent
identities 5 and 7. -/
theorem c10_absent_id_error_atomicity_witness :
    mapLookup (mkInst 5).id regOne.idToIndex = none ∧
    mapLookup 7 regOne.idToIndex = none ∧
    (regOne.update_instance (mkInst 5) = (regOne, Except.error "Instance not found") ∧
     regOne.remove_instance 7 = (regOne, Except.error "Instance not found")) :=
  ⟨by decide, by decide,
   c10_absent_id_error_atomicity regOne (mkInst 5) 7 (by decide) (by decide)⟩

/-- C8: `Camera.update` is idempotent under an unchanged view and
projection: two consecutive calls compute the same view-projection matrix,
issue exactly one device write each, those writes are identical, and the
second call leaves the camera state fixed. -/
theorem c8_camera_update_idempotent (c : Camera) :
    (Camera.update (Camera.update c).1).2 = (Camera.update c).2 ∧
    ((Camera.update c).2).length = 1 ∧
    (Camera.update (Camera.update c).1).1 = (Camera.update c).1 :=
  ⟨rfl, rfl, rfl⟩

/-- C9: resizing with a zero width or zero height is a no-op: the whole
engine state (surface configuration, stored size, camera projection, depth
attachment) is unchanged. -/
theorem c9_resize_zero_noop (e : WgpuEngine) (ns : WindowSize)
    (h : ns.width = 0 ∨ ns.height = 0) : e.resize ns = e := by
  unfold WgpuEngine.resize
  rw [if_neg]
  rintro ⟨h1, h2⟩
  rcases h with h | h <;> omega

/-- Witness for C9: `resize({0, 600})` on the engine configured at
`{801, 600}` leaves it intact. -/
theorem c9_resize_zero_noop_witness :
    ((⟨0, 600⟩ : WindowSize).width = 0 ∨ (⟨0, 600⟩ : WindowSize).height = 0) ∧
    engine801.resize ⟨0, 600⟩ = engine801 ∧
    engine801.config = ⟨801, 600⟩ :=
  ⟨Or.inl rfl, c9_resize_zero_noop engine801 ⟨0, 600⟩ (Or.inl rfl), rfl⟩

/-- C6: with a non-empty free-slot stack, inserting an absent identity
reuses the most-recently-freed slot index (stack pop): the identity is
bound to that index, the transform and its record are written there, and
neither the instance vector length, nor the buffer capacity changes — the
only stack change is the pop. -/
theorem c6_insert_reuses_freed_slot (s : InstanceManager) (inst : Instance) (index : ℕ)
    (hpop : s.removeIdxs.getLast? = some index)
    (habs : mapLookup inst.id s.idToIndex = none)
    (hidx : index < s.instances.length) :
    mapLookup inst.id (s.add_instance inst).idToIndex = some index ∧
    (s.add_instance inst).instances.length = s.instances.length ∧
    (s.add_instance inst).bufferSize = s.bufferSize ∧
    (s.add_instance inst).removeIdxs = s.removeIdxs.dropLast ∧
    (s.add_instance inst).instances.getD index defaultInstance = inst ∧
    (s.add_instance inst).mirror index = some inst.to_raw := by
  rw [add_instance_reuse s inst index hpop]
  exact ⟨mapLookup_mapInsert_self _ _ _, by simp, rfl, rfl,
    getD_set_self _ _ _ hidx, by simp⟩

/-- Witness for C6: reinserting into the one-slot registry whose only slot
was freed pops slot 0 and appends nothing. -/
theorem c6_insert_reuses_freed_slot_witness :
    regFreed.removeIdxs.getLast? = some 0 ∧
    mapLookup (mkInst 1).id regFreed.idToIndex = none ∧
    0 < regFreed.instances.length ∧
    (mapLookup (mkInst 1).id (regFreed.add_instance (mkInst 1)).idToIndex = some 0 ∧
     (regFreed.add_instance (mkInst 1)).instances.length = regFreed.instances.length ∧
     (regFreed.add_instance (mkInst 1)).bufferSize = regFreed.bufferSize ∧
     (regFreed.add_instance (mkInst 1)).removeIdxs = regFreed.removeIdxs.dropLast ∧
     (regFreed.add_instance (mkInst 1)).instances.getD 0 defaultInstance = mkInst 1 ∧
     (regFreed.add_instance (mkInst 1)).mirror 0 = some (mkInst 1).to_raw) :=
  ⟨by decide, by decide, by decide,
   c6_insert_reuses_freed_slot regFreed (mkInst 1) 0 (by decide) (by decide) (by decide)⟩

/-- C1 counterexample: inserting `inst0b`, whose identity 0 is already live
in `regOne`, does not fail (there is no duplicate-identity check and
`add_instance` returns no result at all) and it does modify the registry: a
new slot is appended and the identity is remapped to it. -/
theorem c1_counterexample :
    mapLookup inst0b.id regOne.idToIndex = some 0 ∧
    (regOne.add_instance inst0b).instances.length ≠ regOne.instances.length ∧
    mapLookup 0 (regOne.add_instance inst0b).idToIndex = some 1 := by
  refine ⟨by decide, by decide, by decide⟩

/-- C1 amended: `add_instance` performs no duplicate-identity check and
cannot fail; with an empty free-slot stack, inserting an instance whose
identity is already present modifies the registry: it appends a new slot
holding the new transform, remaps the identity to that slot and leaves
every existing slot (including the one the identity previously occupied)
in place. -/
theorem c1_amended_duplicate_insert_appends (s : InstanceManager) (inst : Instance)
    (j : ℕ) (hdup : mapLookup inst.id s.idToIndex = some j)
    (hstack : s.removeIdxs = []) :
    (s.add_instance inst).instances.length = s.instances.length + 1 ∧
    mapLookup inst.id (s.add_instance inst).idToIndex = some s.instances.length ∧
    (s.add_instance inst).instances.getD s.instances.length defaultInstance = inst ∧
    (∀ i, i < s.instances.length → (s.add_instance inst).instances[i]? = s.instances[i]?) := by
  have hl : s.removeIdxs.getLast? = none := by rw [hstack]; rfl
  rw [add_instance_append s inst hl]
  refine ⟨by simp, mapLookup_mapInsert_self _ _ _, getD_append_length _ _, ?_⟩
  intro i hi
  rw [List.getElem?_append, if_pos hi]

/-- Witness for C1 amended, at `regOne` and the duplicate-identity instance
`inst0b`. -/
theorem c1_amended_duplicate_insert_appends_witness :
    mapLookup inst0b.id regOne.idToIndex = some 0 ∧
    regOne.removeIdxs = [] ∧
    ((regOne.add_instance inst0b).instances.length = regOne.instances.length + 1 ∧
     mapLookup inst0b.id (regOne.add_instance inst0b).idToIndex =
       some regOne.instances.length ∧
     (regOne.add_instance inst0b).instances.getD regOne.instances.length
       defaultInstance = inst0b ∧
     (∀ i, i < regOne.instances.length →
       (regOne.add_instance inst0b).instances[i]? = regOne.instances[i]?)) :=
  ⟨by decide, by decide,
   c1_amended_duplicate_insert_appends regOne inst0b 0 (by decide) (by decide)⟩

/-- C2: the spec's end-to-end scenario, evaluated on the code. After
inserting the 100 identities 0..99 into a fresh registry and removing the
50 even ones, exactly 50 identities are live, all odd — but the instance
vector still has 100 entries, and the per-frame indexed-draw-instanced
call covers `instances.len()` slots, so its instance count is 100, not the
50 the claim requires: removal does not exclude freed slots from the draw
range. -/
theorem c2_draw_count_includes_freed_slots :
    runC2.idToIndex.length = 50 ∧
    (runC2.idToIndex.map Prod.fst).Nodup ∧
    (∀ p ∈ runC2.idToIndex, p.1 % 2 = 1) ∧
    runC2.instances.length = 100 ∧
    drawInstanceCount runC2 = 100 ∧
    drawInstanceCount runC2 ≠ 50 := by
  refine ⟨by decide, by decide, by decide, by decide, by decide, by decide⟩

/-! ## Capacity invariant lemmas -/

theorem bufferSize_pos (s : InstanceManager)
    (h : s.bufferSize = 4 ∨ ∃ k, s.bufferSize = InstanceRaw.SIZE * 2 ^ k) :
    0 < s.bufferSize := by
  rcases h with h4 | ⟨k, hk⟩
  · omega
  · rw [hk, InstanceRaw.SIZE]
    exact Nat.mul_pos (by norm_num) (pow_pos (by norm_num) k)

theorem grown_size_pow (size target : ℕ)
    (hpow : size = 4 ∨ ∃ k, size = InstanceRaw.SIZE * 2 ^ k)
    (htarget : InstanceRaw.SIZE ≤ target) (hg : size < target) :
    growSize target size = 4 ∨ ∃ k, growSize target size = InstanceRaw.SIZE * 2 ^ k := by
  have hpos : 0 < size := by
    rcases hpow with h4 | ⟨k, hk⟩
    · omega
    · rw [hk, InstanceRaw.SIZE]
      exact Nat.mul_pos (by norm_num) (pow_pos (by norm_num) k)
  obtain ⟨m, hm, _⟩ := growSize_pow target size
  have hge : target ≤ growSize target size := growSize_ge target size hpos
  right
  rcases hpow with h4 | ⟨k, hk⟩
  · rw [hm, h4] at hge ⊢
    rw [InstanceRaw.SIZE] at htarget
    have h16 : 16 ≤ 2 ^ m := by omega
    have hm4 : 4 ≤ m := by
      by_contra hlt
      push_neg at hlt
      interval_cases m <;> omega
    refine ⟨m - 4, ?_⟩
    rw [InstanceRaw.SIZE]
    calc 4 * 2 ^ m = 4 * 2 ^ (4 + (m - 4)) := by rw [Nat.add_sub_cancel' hm4]
    _ = 4 * (2 ^ 4 * 2 ^ (m - 4)) := by rw [pow_add]
    _ = 64 * 2 ^ (m - 4) := by ring
  · exact ⟨k + m, by rw [hm, hk, pow_add]; ring⟩

theorem capInv_applyOp (s : InstanceManager) (op : Op)
    (h : (s.bufferSize = 4 ∨ ∃ k, s.bufferSize = InstanceRaw.SIZE * 2 ^ k) ∧
         InstanceRaw.SIZE * s.instances.length ≤ s.bufferSize) :
    ((applyOp s op).bufferSize = 4 ∨
      ∃ k, (applyOp s op).bufferSize = InstanceRaw.SIZE * 2 ^ k) ∧
    InstanceRaw.SIZE * (applyOp s op).instances.length ≤ (applyOp s op).bufferSize := by
  obtain ⟨hpow, hlen⟩ := h
  have hpos : 0 < s.bufferSize := bufferSize_pos s hpow
  cases op with
  | add inst =>
    simp only [applyOp]
    cases hl : s.removeIdxs.getLast? with
    | some index =>
      rw [add_instance_reuse s inst index hl]
      exact ⟨hpow, by simpa using hlen⟩
    | none =>
      rw [add_instance_append s inst hl]
      by_cases hg : s.bufferSize < InstanceRaw.SIZE * (s.instances.length + 1)
      · simp only [if_pos hg, List.length_append, List.length_singleton]
        have htarget : InstanceRaw.SIZE ≤ InstanceRaw.SIZE * (s.instances.length + 1) :=
          Nat.le_mul_of_pos_right _ (by omega)
        refine ⟨grown_size_pow s.bufferSize _ hpow htarget hg, ?_⟩
        exact growSize_ge _ _ hpos
      · simp only [if_neg hg, List.length_append, List.length_singleton]
        exact ⟨hpow, by omega⟩
  | update inst =>
    simp only [applyOp]
    cases hl : mapLookup inst.id s.idToIndex with
    | some index =>
      rw [update_instance_found s inst index hl]
      exact ⟨hpow, by simpa using hlen⟩
    | none =>
      rw [update_instance_notFound s inst hl]
      exact ⟨hpow, hlen⟩
  | remove id =>
    simp only [applyOp]
    cases hl : mapLookup id s.idToIndex with
    | some index =>
      rw [remove_instance_found s id index hl]
      exact ⟨hpow, hlen⟩
    | none =>
      rw [remove_instance_notFound s id hl]
      exact ⟨hpow, hlen⟩

theorem bufferSize_mono_applyOp (s : InstanceManager) (op : Op) :
    s.bufferSize ≤ (applyOp s op).bufferSize := by
  cases op with
  | add inst =>
    show s.bufferSize ≤ (s.add_instance inst).bufferSize
    cases hl : s.removeIdxs.getLast? with
    | some index => rw [add_instance_reuse s inst index hl]
    | none =>
      rw [add_instance_append s inst hl]
      by_cases hg : s.bufferSize < InstanceRaw.SIZE * (s.instances.length + 1)
      · simp only [if_pos hg]
        exact growSize_le _ _
      · simp only [if_neg hg]
        exact Nat.le_refl _
  | update inst =>
    show s.bufferSize ≤ (s.update_instance inst).1.bufferSize
    cases hl : mapLookup inst.id s.idToIndex with
    | some index => rw [update_instance_found s inst index hl]
    | none => rw [update_instance_notFound s inst hl]
  | remove id =>
    show s.bufferSize ≤ (s.remove_instance id).1.bufferSize
    cases hl : mapLookup id s.idToIndex with
    | some index => rw [remove_instance_found s id index hl]
    | none => rw [remove_instance_notFound s id hl]

/-- C3 counterexample: the freshly constructed registry is reachable, its
buffer capacity is the literal 4 bytes, and 4 bytes is not a power-of-two
number of 64-byte records — indeed not even a whole number of records. -/
theorem c3_counterexample :
    Reachable InstanceManager.new ∧
    InstanceManager.new.bufferSize = 4 ∧
    (¬ ∃ k : ℕ, InstanceManager.new.bufferSize = InstanceRaw.SIZE * 2 ^ k) ∧
    (¬ ∃ n : ℕ, InstanceManager.new.bufferSize = InstanceRaw.SIZE * n) := by
  refine ⟨Reachable.init, rfl, ?_, ?_⟩
  · rintro ⟨k, hk⟩
    rw [show InstanceManager.new.bufferSize = 4 from rfl, InstanceRaw.SIZE] at hk
    have h1 : 1 ≤ 2 ^ k := Nat.one_le_two_pow
    omega
  · rintro ⟨n, hn⟩
    rw [show InstanceManager.new.bufferSize = 4 from rfl, InstanceRaw.SIZE] at hn
    omega

/-- C3 amended: in every reachable registry state the device-mirror byte
capacity is either the initial 4 bytes (less than one record) or a
power-of-two number of `InstanceRaw::SIZE`-byte records; it is always at
least `instances.len() * record_size`; and no operation ever shrinks it. -/
theorem c3_amended_capacity_invariant :
    (∀ s : InstanceManager, Reachable s →
      (s.bufferSize = 4 ∨ ∃ k, s.bufferSize = InstanceRaw.SIZE * 2 ^ k) ∧
      InstanceRaw.SIZE * s.instances.length ≤ s.bufferSize) ∧
    (∀ (s : InstanceManager) (op : Op), s.bufferSize ≤ (applyOp s op).bufferSize) := by
  constructor
  · intro s hs
    induction hs with
    | init => exact ⟨Or.inl rfl, by simp [InstanceManager.new]⟩
    | step op _ ih => exact capInv_applyOp _ op ih
  · exact bufferSize_mono_applyOp

/-- Witness for C3 amended, at the initial state and one concrete insert. -/
theorem c3_amended_capacity_invariant_witness :
    Reachable InstanceManager.new ∧
    ((InstanceManager.new.bufferSize = 4 ∨
        ∃ k, InstanceManager.new.bufferSize = InstanceRaw.SIZE * 2 ^ k) ∧
      InstanceRaw.SIZE * InstanceManager.new.instances.length ≤
        InstanceManager.new.bufferSize) ∧
    InstanceManager.new.bufferSize ≤ (applyOp InstanceManager.new (Op.add inst0)).bufferSize :=
  ⟨Reachable.init,
   c3_amended_capacity_invariant.1 InstanceManager.new Reachable.init,
   c3_amended_capacity_invariant.2 InstanceManager.new (Op.add inst0)⟩

/-! ## Capacity after a sequence of inserts into a fresh registry -/

theorem addFold_spec (C : ℕ) (hC : 0 < C) (l : List Instance) :
    (l.foldl InstanceManager.add_instance (initWithSize C)).removeIdxs = [] ∧
    (l.foldl InstanceManager.add_instance (initWithSize C)).instances.length = l.length ∧
    (l = [] → (l.foldl InstanceManager.add_instance (initWithSize C)).bufferSize = C) ∧
    (l ≠ [] → ∃ k,
      (l.foldl InstanceManager.add_instance (initWithSize C)).bufferSize = C * 2 ^ k ∧
      InstanceRaw.SIZE * l.length ≤
        (l.foldl InstanceManager.add_instance (initWithSize C)).bufferSize ∧
      (k = 0 ∨ C * 2 ^ (k - 1) < InstanceRaw.SIZE * l.length)) := by
  induction l using List.reverseRecOn with
  | nil =>
    refine ⟨rfl, rfl, fun _ => rfl, fun h => absurd rfl h⟩
  | append_singleton l a ih =>
    obtain ⟨ih1, ih2, ih3, ih4⟩ := ih
    rw [List.foldl_append, List.foldl_cons, List.foldl_nil]
    have hl : (l.foldl InstanceManager.add_instance (initWithSize C)).removeIdxs.getLast? =
        none := by rw [ih1]; rfl
    rw [add_instance_append _ a hl]
    rw [ih1, ih2]
    refine ⟨rfl, by simp [ih2], fun h => absurd h (by simp), fun _ => ?_⟩
    simp only [List.length_append, List.length_singleton, InstanceRaw.SIZE] at ih4 ⊢
    rcases List.eq_nil_or_concat l with rfl | hne
    · -- first insert: the buffer starts at C
      have hC4 := ih3 rfl
      rw [hC4]
      simp only [List.length_nil]
      by_cases hg : C < 64 * (0 + 1)
      · rw [if_pos hg]
        obtain ⟨m, hm, hmin⟩ := growSize_pow (64 * (0 + 1)) C
        exact ⟨m, hm, growSize_ge _ _ hC, by omega⟩
      · rw [if_neg hg]
        exact ⟨0, by ring, by omega, Or.inl rfl⟩
    · have hlen : l ≠ [] := by
        rcases hne with ⟨l2, b, rfl⟩
        simp
      obtain ⟨k, hk, hge, hmin⟩ := ih4 hlen
      have hpos : 0 < (l.foldl InstanceManager.add_instance (initWithSize C)).bufferSize := by
        rw [hk]
        exact Nat.mul_pos hC (pow_pos (by norm_num) k)
      by_cases hg : (l.foldl InstanceManager.add_instance (initWithSize C)).bufferSize <
          64 * (l.length + 1)
      · rw [if_pos hg]
        obtain ⟨m, hm, hmin2⟩ := growSize_pow (64 * (l.length + 1))
          (l.foldl InstanceManager.add_instance (initWithSize C)).bufferSize
        have hge2 := growSize_ge (64 * (l.length + 1))
          (l.foldl InstanceManager.add_instance (initWithSize C)).bufferSize hpos
        rcases Nat.eq_zero_or_pos m with rfl | hm1
        · exfalso
          simp only [pow_zero, Nat.mul_one] at hm
          omega
        · refine ⟨k + m, by rw [hm, hk, pow_add]; ring, hge2, Or.inr ?_⟩
          rcases hmin2 with rfl | hlt
          · omega
          · have he : k + m - 1 = k + (m - 1) := by omega
            rw [he, pow_add, ← Nat.mul_assoc, ← hk]
            exact hlt
      · rw [if_neg hg]
        refine ⟨k, hk, by omega, ?_⟩
        rcases hmin with rfl | hlt
        · exact Or.inl rfl
        · exact Or.inr (by omega)

/-- C5: inserting `N ≥ 1` items into a fresh registry that starts at buffer
capacity `C` yields a final capacity `C * 2^k` that accommodates the `N`
records and is the smallest power-of-two multiple of `C` that does —
growth only ever doubles; and whenever an insert takes the growth path,
the new buffer receives every existing record again (full re-upload) plus
the new one. -/
theorem c5_capacity_doubling (C : ℕ) (hC : 0 < C) (l : List Instance) (hN : 1 ≤ l.length) :
    (∃ k : ℕ,
      (l.foldl InstanceManager.add_instance (initWithSize C)).bufferSize = C * 2 ^ k ∧
      InstanceRaw.SIZE * l.length ≤ C * 2 ^ k ∧
      (∀ j : ℕ, InstanceRaw.SIZE * l.length ≤ C * 2 ^ j → C * 2 ^ k ≤ C * 2 ^ j)) ∧
    (∀ (s : InstanceManager) (inst : Instance),
      s.removeIdxs = [] →
      s.bufferSize < InstanceRaw.SIZE * (s.instances.length + 1) →
      ∀ i : ℕ, i < s.instances.length + 1 →
        (s.add_instance inst).mirror i =
          ((s.instances ++ [inst])[i]?).map Instance.to_raw) := by
  constructor
  · have hne : l ≠ [] := by
      intro h
      rw [h] at hN
      simp at hN
    obtain ⟨_, _, _, h4⟩ := addFold_spec C hC l
    obtain ⟨k, hk, hge, hmin⟩ := h4 hne
    rw [hk] at hge
    refine ⟨k, hk, hge, fun j hj => ?_⟩
    rcases hmin with rfl | hlt
    · exact Nat.mul_le_mul_left C (Nat.pow_le_pow_right (by norm_num) (Nat.zero_le j))
    · have h2 : C * 2 ^ (k - 1) < C * 2 ^ j := lt_of_lt_of_le hlt hj
      have h3 : 2 ^ (k - 1) < 2 ^ j := Nat.lt_of_mul_lt_mul_left h2
      have h4 : k - 1 < j := (Nat.pow_lt_pow_iff_right (by norm_num)).mp h3
      exact Nat.mul_le_mul_left C (Nat.pow_le_pow_right (by norm_num) (by omega))
  · intro s inst hstack hg i hi
    have hl : s.removeIdxs.getLast? = none := by rw [hstack]; rfl
    rw [add_instance_append s inst hl]
    show (if i = s.instances.length then some inst.to_raw
      else if s.bufferSize < InstanceRaw.SIZE * (s.instances.length + 1) then
        (if i < s.instances.length then (s.instances[i]?).map Instance.to_raw else none)
      else s.mirror i) = _
    by_cases hil : i = s.instances.length
    · rw [if_pos hil, hil, List.getElem?_concat_length]
      rfl
    · have hilt : i < s.instances.length := by omega
      rw [if_neg hil, if_pos hg, if_pos hilt, List.getElem?_append, if_pos hilt]

/-- Witness for C5 at `C = 4` and a single insert: the final capacity is
64, the smallest power-of-two multiple of 4 holding one 64-byte record. -/
theorem c5_capacity_doubling_witness :
    0 < 4 ∧ 1 ≤ [inst0].length ∧
    ((∃ k : ℕ,
      ([inst0].foldl InstanceManager.add_instance (initWithSize 4)).bufferSize = 4 * 2 ^ k ∧
      InstanceRaw.SIZE * [inst0].length ≤ 4 * 2 ^ k ∧
      (∀ j : ℕ, InstanceRaw.SIZE * [inst0].length ≤ 4 * 2 ^ j → 4 * 2 ^ k ≤ 4 * 2 ^ j)) ∧
    (∀ (s : InstanceManager) (inst : Instance),
      s.removeIdxs = [] →
      s.bufferSize < InstanceRaw.SIZE * (s.instances.length + 1) →
      ∀ i : ℕ, i < s.instances.length + 1 →
        (s.add_instance inst).mirror i =
          ((s.instances ++ [inst])[i]?).map Instance.to_raw)) :=
  ⟨by decide, by decide, c5_capacity_doubling 4 (by decide) [inst0] (by decide)⟩

/-- C7: removing a live identity succeeds and returns the transform stored
in its slot; afterwards — and after any further operations that do not
re-insert that identity — `update_instance` and `remove_instance` on it
fail with the not-found error; and re-inserting the identity then succeeds,
binding it to a slot that holds exactly the newly supplied transform. -/
theorem c7_remove_notfound_reinsert (s : InstanceManager) (id index : ℕ)
    (hwf : WF s) (hlk : mapLookup id s.idToIndex = some index) :
    (s.remove_instance id).2 = Except.ok (s.instances.getD index defaultInstance) ∧
    (∀ ops : List Op, (∀ op ∈ ops, ¬ insertsId id op) →
      (∀ inst : Instance, inst.id = id →
        ((applyOps (s.remove_instance id).1 ops).update_instance inst).2 =
          Except.error "Instance not found") ∧
      ((applyOps (s.remove_instance id).1 ops).remove_instance id).2 =
        Except.error "Instance not found") ∧
    (∀ ops : List Op, (∀ op ∈ ops, ¬ insertsId id op) →
      ∀ inst : Instance, inst.id = id →
      ∃ j, mapLookup id ((applyOps (s.remove_instance id).1 ops).add_instance inst).idToIndex
             = some j ∧
           ((applyOps (s.remove_instance id).1 ops).add_instance inst).instances.getD j
             defaultInstance = inst) := by
  have hrem := remove_instance_found s id index hlk
  have habs1 : mapLookup id (s.remove_instance id).1.idToIndex = none := by
    rw [hrem]
    exact mapLookup_filter_self id s.idToIndex
  have hwf1 : WF (s.remove_instance id).1 := wf_applyOp s (Op.remove id) hwf
  refine ⟨by rw [hrem], fun ops hops => ?_, fun ops hops inst hid => ?_⟩
  · have habs2 : mapLookup id (applyOps (s.remove_instance id).1 ops).idToIndex = none :=
      mapLookup_none_applyOps _ ops id habs1 hops
    constructor
    · intro inst hid
      rw [update_instance_notFound _ inst (by rw [hid]; exact habs2)]
    · rw [remove_instance_notFound _ id habs2]
  · subst hid
    have hwf2 : WF (applyOps (s.remove_instance inst.id).1 ops) := wf_applyOps _ ops hwf1
    cases hl2 : (applyOps (s.remove_instance inst.id).1 ops).removeIdxs.getLast? with
    | some r =>
      have hr : r < (applyOps (s.remove_instance inst.id).1 ops).instances.length :=
        hwf2.2 r (mem_of_getLast?_eq _ r hl2)
      rw [add_instance_reuse _ inst r hl2]
      exact ⟨r, mapLookup_mapInsert_self _ _ _, getD_set_self _ _ _ hr⟩
    | none =>
      rw [add_instance_append _ inst hl2]
      exact ⟨_, mapLookup_mapInsert_self _ _ _, getD_append_length _ _⟩

/-- Witness for C7 at the one-instance registry `regOne`, identity 0,
slot 0 (with the empty list of intervening operations available to the
universally quantified parts). -/
theorem c7_remove_notfound_reinsert_witness :
    WF regOne ∧ mapLookup 0 regOne.idToIndex = some 0 ∧
    ((regOne.remove_instance 0).2 =
        Except.ok (regOne.instances.getD 0 defaultInstance) ∧
     (∀ ops : List Op, (∀ op ∈ ops, ¬ insertsId 0 op) →
       (∀ inst : Instance, inst.id = 0 →
         ((applyOps (regOne.remove_instance 0).1 ops).update_instance inst).2 =
           Except.error "Instance not found") ∧
       ((applyOps (regOne.remove_instance 0).1 ops).remove_instance 0).2 =
         Except.error "Instance not found") ∧
     (∀ ops : List Op, (∀ op ∈ ops, ¬ insertsId 0 op) →
       ∀ inst : Instance, inst.id = 0 →
       ∃ j, mapLookup 0 ((applyOps (regOne.remove_instance 0).1 ops).add_instance inst).idToIndex
              = some j ∧
            ((applyOps (regOne.remove_instance 0).1 ops).add_instance inst).instances.getD j
              defaultInstance = inst)) :=
  ⟨⟨by decide, by decide⟩, by decide,
   c7_remove_notfound_reinsert regOne 0 0 ⟨by decide, by decide⟩ (by decide)⟩

/-! ## Forward movement (C4) -/

theorem vec3_mag_300 : (Vec3.mk 3 0 0).mag = 3 := by
  unfold Vec3.mag
  rw [show (3:ℝ) * 3 + 0 * 0 + 0 * 0 = 3 ^ 2 by norm_num]
  exact Real.sqrt_sq (by norm_num)

theorem la0_sub : la0.target - la0.eye = ⟨3, 0, 0⟩ := by
  simp [la0]

theorem vec3_normalized_300 : (Vec3.mk 3 0 0).normalized = ⟨1, 0, 0⟩ := by
  unfold Vec3.normalized
  rw [vec3_mag_300]
  norm_num

/-- C4 counterexample: at the view whose eye is 3 units from its target,
`go_forward(1)` does not translate the eye by exactly the speed along the
normalized eye-to-target direction — the guarded advance plus the
unconditional advance move it twice as far. -/
theorem c4_counterexample :
    la0.eye ≠ la0.target ∧
    (la0.go_forward 1).eye ≠ la0.eye + (1 : ℝ) • (la0.target - la0.eye).normalized := by
  constructor
  · intro h
    have hx := congrArg Vec3.x h
    norm_num [la0] at hx
  · unfold LookAt.go_forward
    show (if (1:ℝ) < (la0.target - la0.eye).mag then
        la0.eye + (1:ℝ) • (la0.target - la0.eye).normalized else la0.eye) +
        (1:ℝ) • (la0.target - la0.eye).normalized ≠
      la0.eye + (1:ℝ) • (la0.target - la0.eye).normalized
    rw [la0_sub, vec3_mag_300, vec3_normalized_300, if_pos (by norm_num : (1:ℝ) < 3)]
    intro h
    have hx := congrArg Vec3.x h
    norm_num [la0] at hx

/-- C4 amended: with eye distinct from target, `go_forward(speed)`
translates the eye along the normalized eye-to-target direction by
`2 * speed` when the remaining distance exceeds `speed` (the guarded
advance plus the unconditional one), and by exactly `speed` — the full
speed, overshooting past the target — when the remaining distance is at
most `speed` (only the unconditional advance fires). -/
theorem c4_amended_double_advance (v : LookAt) (speed : ℝ) (h : v.eye ≠ v.target) :
    (v.go_forward speed).eye =
      v.eye + (if speed < (v.target - v.eye).mag then 2 * speed else speed) •
        (v.target - v.eye).normalized := by
  unfold LookAt.go_forward
  show (if speed < (v.target - v.eye).mag then
      v.eye + speed • (v.target - v.eye).normalized else v.eye) +
      speed • (v.target - v.eye).normalized = _
  by_cases hc : speed < (v.target - v.eye).mag
  · rw [if_pos hc, if_pos hc]
    simp only [Vec3.add_def, Vec3.smul_def, Vec3.mk.injEq]
    refine ⟨by ring, by ring, by ring⟩
  · rw [if_neg hc, if_neg hc]

/-- Witness for C4 amended at the concrete view `la0` and speed 1. -/
theorem c4_amended_double_advance_witness :
    la0.eye ≠ la0.target ∧
    (la0.go_forward 1).eye =
      la0.eye + (if (1:ℝ) < (la0.target - la0.eye).mag then ((2 : ℝ) * 1) else (1 : ℝ)) •
        (la0.target - la0.eye).normalized :=
  ⟨by intro h; have hx := congrArg Vec3.x h; norm_num [la0] at hx,
   c4_amended_double_advance la0 1
     (by intro h; have hx := congrArg Vec3.x h; norm_num [la0] at hx)⟩
